import Mathlib

/-!
# Cluster contraction (`ClusterContracter::run`) over the abstract graph contract

A shallow embedding of `src/coarsening/ClusterContracter.cpp`.  The function
`run` is translated statement by statement.  The classes it calls (`Graph`,
`Clustering`, `IndexMap`) have no implementation in the sources at hand, so
they are modelled from the specification; every such definition says so.

Mutable C++ objects become explicit state: `run` returns the state of the
source graph `G` after the call, the cluster-to-supernode index, and the
outcome (the contracted graph, or the failure that aborted the call).

Edge weights are `double` in the source; here they are integers, i.e. exact
numbers, so every statement is about the mathematical sum.

The second part embeds what `src/cpp/graph/IGraph.h` itself implements: the
constructors with the graph id counter, `getId`, and the body the interface
provides for `parallelSumForNodes`.
-/

namespace EnsembleClustering

/-- Node identifiers are dense non-negative integers. -/
abbrev node := Nat

/-- Cluster identifiers are small non-negative integers. -/
abbrev cluster := Nat

/-- Edge weights, taken as exact numbers. -/
abbrev edgeweight := Int

/-- Modelled from the spec: the error taxonomy of section 7 (the source has
only `assert`), plus the internal-invariant violation of section 4.2 for an
edge endpoint whose cluster is absent from the supernode index. -/
inductive ContractError where
  | invalidNodeId
  | invalidEdgeOperation
  | invalidClusterId
  | unsupportedOperation
  | missingSuperNode
  deriving DecidableEq

deriving instance DecidableEq for Except

/-- Modelled from the spec: the `Graph` class is missing from the sources.
A graph owns its live node ids (in creation order), the exclusive upper bound
`z` on node ids (the next id `addNode` hands out; ids are never reused), and
its edges, each an unordered endpoint pair with a weight, in insertion
order. -/
structure Graph where
  nodes : List node
  z : Nat
  edges : List (node × node × edgeweight)
  deriving DecidableEq

namespace Graph

/-- Modelled from the spec: `new Graph()`, a graph with no node and no edge. -/
def empty : Graph := { nodes := [], z := 0, edges := [] }

/-- Modelled from the spec: `addNode` creates a node with the next unused id
and returns that id (ids are assigned monotonically). -/
def addNode (G : Graph) : node × Graph :=
  (G.z, { G with nodes := G.nodes ++ [G.z], z := G.z + 1 })

/-- Modelled from the spec: existence query by node id. -/
def hasNode (G : Graph) (v : node) : Bool := decide (v ∈ G.nodes)

/-- Modelled from the spec: an edge is identified by the unordered pair of its
endpoints; `joins u v e` says that the stored edge `e` is the edge `{u, v}`. -/
def joins (u v : node) (e : node × node × edgeweight) : Bool :=
  (e.1 == u && e.2.1 == v) || (e.1 == v && e.2.1 == u)

/-- Modelled from the spec: edge existence query; it answers false for a pair
that is not stored, whatever the two ids are. -/
def hasEdge (G : Graph) (u v : node) : Bool := G.edges.any (joins u v)

/-- Modelled from the spec: `weight(u, v)`; on a non-existent edge its
contract is to return a neutral zero, not an error. -/
def weight (G : Graph) (u v : node) : edgeweight :=
  match G.edges.find? (joins u v) with
  | some e => e.2.2
  | none => 0

/-- Modelled from the spec: the one-argument `weight(v)` of the source reads
the weight of a node, which by convention is its self-loop weight. -/
def nodeWeight (G : Graph) (v : node) : edgeweight := G.weight v v

/-- Rewrite the weight of the stored edge `{u, v}`. -/
def overwrite (u v : node) (w : edgeweight) :
    List (node × node × edgeweight) → List (node × node × edgeweight)
  | [] => []
  | e :: es => if joins u v e then (e.1, e.2.1, w) :: es else e :: overwrite u v w es

/-- Modelled from the spec: `setWeight(u, v, w)`.  Section 4.1: "operations
referencing a node id that does not currently exist ... fail with an
identifiable error rather than silently returning a default", which section 7
names `InvalidNodeId`; "set/increase on a non-existent edge implicitly inserts
it with that weight". -/
def setWeight (G : Graph) (u v : node) (w : edgeweight) : Except ContractError Graph :=
  if G.hasNode u && G.hasNode v then
    if G.hasEdge u v then .ok { G with edges := overwrite u v w G.edges }
    else .ok { G with edges := G.edges ++ [(u, v, w)] }
  else .error .invalidNodeId

/-- Modelled from the spec: the two-argument `setWeight(v, w)` of the source
sets the weight of a node, i.e. its self-loop weight. -/
def setNodeWeight (G : Graph) (v : node) (w : edgeweight) : Except ContractError Graph :=
  G.setWeight v v w

/-- Modelled from the spec: `insertEdge(u, v, w)`.  Like every operation that
references a node id that does not currently exist, it fails with
`InvalidNodeId` when an endpoint is missing.  An edge is identified by its
endpoint pair, so inserting over an edge already present overwrites its weight
(section 9: "causing a later edge to overwrite rather than accumulate onto an
already-inserted supernode edge"). -/
def insertEdge (G : Graph) (u v : node) (w : edgeweight) : Except ContractError Graph :=
  if G.hasNode u && G.hasNode v then
    if G.hasEdge u v then .ok { G with edges := overwrite u v w G.edges }
    else .ok { G with edges := G.edges ++ [(u, v, w)] }
  else .error .invalidNodeId

/-- Modelled from the spec: the current node count. -/
def numberOfNodes (G : Graph) : Nat := G.nodes.length

/-- Modelled from the spec: the current edge count. -/
def numberOfEdges (G : Graph) : Nat := G.edges.length

/-- Modelled from the spec: the sum over all distinct edges, self-loops
counted once. -/
def totalEdgeWeight (G : Graph) : edgeweight := (G.edges.map (fun e => e.2.2)).sum

end Graph

/-- Modelled from the spec: the `Clustering` class is missing from the
sources.  It assigns every node id a cluster id (`clusterOf`, also written
`zeta[v]`) and declares an upper bound on cluster ids. -/
structure Clustering where
  clusterOf : node → cluster
  upperBound : Nat

/-- Modelled from the spec: the `IndexMap` class is missing from the sources.
An index keyed by cluster id, created for `n` cluster ids with every slot
unset; kept as the sparse mapping the spec allows, so that a key at or beyond
`n` is stored like any other (the source performs no bounds check on it). -/
structure IndexMap where
  n : Nat
  slot : cluster → Option node

namespace IndexMap

/-- Modelled from the spec: `IndexMap(n)`, no cluster has a supernode yet. -/
def init (n : Nat) : IndexMap := { n := n, slot := fun _ => none }

/-- Modelled from the spec: `contains(c)`, whether a supernode was recorded
for `c`. -/
def contains (m : IndexMap) (c : cluster) : Bool := (m.slot c).isSome

/-- Modelled from the spec: `m[c] = sv`, record the mapping `c -> sv`. -/
def set (m : IndexMap) (c : cluster) (sv : node) : IndexMap :=
  { m with slot := fun k => if k = c then some sv else m.slot k }

/-- Modelled from the spec: `m[c]` read; `none` when nothing was recorded. -/
def get (m : IndexMap) (c : cluster) : Option node := m.slot c

end IndexMap

/-- Body of the node pass (lines 28-34): for a cluster seen for the first time
a node is added to the source graph `G` and recorded as its supernode. -/
def populate (zeta : Clustering) (st : Graph × IndexMap) (v : node) : Graph × IndexMap :=
  let c := zeta.clusterOf v
  if st.2.contains c then st
  else
    let r := st.1.addNode
    (r.2, st.2.set c r.1)

/-- The node pass: `G.forallNodes` visits every node that `G` has when the
pass starts, once, in creation order. -/
def nodePass (G : Graph) (zeta : Clustering) : Graph × IndexMap :=
  G.nodes.foldl (populate zeta) (G, IndexMap.init zeta.upperBound)

/-- The lambda `getSuperNode` (lines 37-42): the assertion
`cv <= zeta.upperBound()`, then the index lookup.  A failed assertion is the
out-of-range cluster failure; reading a slot that was never set is the
internal-invariant violation of section 4.2. -/
def getSuperNode (zeta : Clustering) (m : IndexMap) (v : node) : Except ContractError node :=
  let cv := zeta.clusterOf v
  if cv ≤ zeta.upperBound then
    match m.get cv with
    | some sv => .ok sv
    | none => .error .missingSuperNode
  else .error .invalidClusterId

/-- Body of the edge pass (lines 45-61), applied to the edge `e = (u, v, _)`
of `G` with the contracted graph `Gcon` built so far. -/
def foldEdge (G : Graph) (zeta : Clustering) (m : IndexMap) (Gcon : Graph)
    (e : node × node × edgeweight) : Except ContractError Graph :=
  let u := e.1
  let v := e.2.1
  match getSuperNode zeta m u with
  | .error err => .error err
  | .ok su =>
    match getSuperNode zeta m v with
    | .error err => .error err
    | .ok sv =>
      if zeta.clusterOf u = zeta.clusterOf v then
        Gcon.setNodeWeight su (Gcon.nodeWeight su + G.weight u v)
      else if Gcon.hasEdge u v then
        Gcon.setWeight su sv (Gcon.weight su sv + G.weight u v)
      else
        Gcon.insertEdge su sv (G.weight u v)

/-- The edge pass: `G.forallEdges` visits every edge of `G` once, in insertion
order; the first failure aborts the pass. -/
def edgePass (G : Graph) (zeta : Clustering) (m : IndexMap) :
    List (node × node × edgeweight) → Graph → Except ContractError Graph
  | [], Gcon => .ok Gcon
  | e :: es, Gcon =>
    match foldEdge G zeta m Gcon e with
    | .error err => .error err
    | .ok Gcon1 => edgePass G zeta m es Gcon1

/-- What a call of `run` leaves behind: the source graph as it is after the
call, the cluster-to-supernode index, and the returned graph or the failure. -/
structure Outcome where
  source : Graph
  index : IndexMap
  result : Except ContractError Graph

/-- Translation of `ClusterContracter::run(G, zeta)` (lines 21-64): `Gcon`
starts as `new Graph()`, the node pass runs on `G`, then the edge pass walks
the edges of `G` and folds them into `Gcon`. -/
def run (G : Graph) (zeta : Clustering) : Outcome :=
  let st := nodePass G zeta
  { source := st.1
    index := st.2
    result := edgePass st.1 zeta st.2 st.1.edges Graph.empty }

end EnsembleClustering

namespace EnsembleClustering

/-! ## The quantities the specification speaks about -/

/-- Number of distinct values of `zeta.clusterOf v` over the nodes `v` of `G`
(the supernode count the specification promises). -/
def distinctClusters (G : Graph) (zeta : Clustering) : Nat :=
  ((G.nodes.map zeta.clusterOf).dedup).length

/-- Sum of the weights of all edges of `G` with one endpoint in cluster `A`
and the other in cluster `B` (the inter-cluster weight the specification
promises on the edge between the two supernodes). -/
def interClusterWeight (G : Graph) (zeta : Clustering) (A B : cluster) : edgeweight :=
  ((G.edges.filter (fun e =>
      (zeta.clusterOf e.1 == A && zeta.clusterOf e.2.1 == B) ||
      (zeta.clusterOf e.1 == B && zeta.clusterOf e.2.1 == A))).map (fun e => e.2.2)).sum

/-- Sum of the weights of all edges of `G` with both endpoints in cluster `c`,
self-loops included (the self-loop weight the specification promises). -/
def intraClusterWeight (G : Graph) (zeta : Clustering) (c : cluster) : edgeweight :=
  ((G.edges.filter (fun e =>
      zeta.clusterOf e.1 == c && zeta.clusterOf e.2.1 == c)).map (fun e => e.2.2)).sum

/-! ## Concrete inputs -/

/-- Four nodes and two disjoint edges, `{0,2}` of weight 1 and `{1,3}` of
weight 2. -/
def twoCrossEdges : Graph :=
  { nodes := [0, 1, 2, 3], z := 4, edges := [(0, 2, 1), (1, 3, 2)] }

/-- Nodes 0 and 1 in cluster 0, every other node in cluster 1. -/
def halves : Clustering := { clusterOf := fun v => if v < 2 then 0 else 1, upperBound := 2 }

/-- A single node, no edge. -/
def oneNode : Graph := { nodes := [0], z := 1, edges := [] }

/-- Two nodes joined by one edge of weight 7. -/
def oneEdge : Graph := { nodes := [0, 1], z := 2, edges := [(0, 1, 7)] }

/-- Two nodes, no edge. -/
def twoNodes : Graph := { nodes := [0, 1], z := 2, edges := [] }

/-- Three nodes, no edge. -/
def threeNodes : Graph := { nodes := [0, 1, 2], z := 3, edges := [] }

/-- Every node in cluster 0; one cluster id is declared. -/
def allZero : Clustering := { clusterOf := fun _ => 0, upperBound := 1 }

/-- Every node in its own cluster. -/
def identityClustering (n : Nat) : Clustering := { clusterOf := fun v => v, upperBound := n }

/-- Every node mapped to cluster 5 while only the ids below 2 are declared. -/
def outOfRange : Clustering := { clusterOf := fun _ => 5, upperBound := 2 }

/-- Every node mapped to cluster 2, the declared bound itself. -/
def atBound : Clustering := { clusterOf := fun _ => 2, upperBound := 2 }

/-- The path of the specification's scenario: nodes 0..3 and the edges
`(0,1)` of weight 1, `(1,2)` of weight 2, `(2,3)` of weight 3. -/
def scenarioGraph : Graph :=
  { nodes := [0, 1, 2, 3], z := 4, edges := [(0, 1, 1), (1, 2, 2), (2, 3, 3)] }

/-- The clustering of the scenario: `A = 0` holds nodes 0 and 1, `B = 1` holds
nodes 2 and 3. -/
def scenarioClustering : Clustering :=
  { clusterOf := fun v => if v < 2 then 0 else 1, upperBound := 2 }

/-- Three nodes joined in a triangle, weights 1, 2 and 4. -/
def triangle : Graph :=
  { nodes := [0, 1, 2], z := 3, edges := [(0, 1, 1), (1, 2, 2), (0, 2, 4)] }

/-- The source graph `twoCrossEdges` as the node pass leaves it: the
supernodes 4 and 5 were added to it. -/
def twoCrossEdgesAfter : Graph :=
  { nodes := [0, 1, 2, 3, 4, 5], z := 6, edges := [(0, 2, 1), (1, 3, 2)] }

/-- The index the node pass builds for `twoCrossEdges` and `halves`. -/
def halvesIndex : IndexMap := ((IndexMap.init 2).set 0 4).set 1 5

/-- A contracted graph that owns the two supernodes 4 and 5 and nothing else:
what `Gcon` would be had the supernodes been created in it. -/
def superPair : Graph := { nodes := [4, 5], z := 6, edges := [] }

/-- The graph `superPair` with the edge `{4, 5}` of weight 1 already folded in. -/
def superPairLinked : Graph := { nodes := [4, 5], z := 6, edges := [(4, 5, 1)] }

/-- Three nodes on a path: the edges `{0,1}` of weight 1 and `{1,2}` of
weight 2. -/
def crossPath : Graph := { nodes := [0, 1, 2], z := 3, edges := [(0, 1, 1), (1, 2, 2)] }

/-! ## Further quantities and predicates used by the statements -/

/-- The graph `G` with its nodes enumerated in the order `ns` (same id bound,
same edges in the same order): the input of a run whose node pass visits the
nodes in another order. -/
def Graph.reorder (G : Graph) (ns : List node) : Graph := { G with nodes := ns }

/-- Number of distinct unordered pairs of different clusters that are joined
by at least one edge of `G` (the number of non-self edges the specification
promises in the contracted graph). -/
def joinedClusterPairs (G : Graph) (zeta : Clustering) : Nat :=
  (((G.edges.filter (fun e => zeta.clusterOf e.1 != zeta.clusterOf e.2.1)).map
      (fun e => (min (zeta.clusterOf e.1) (zeta.clusterOf e.2.1),
                 max (zeta.clusterOf e.1) (zeta.clusterOf e.2.1)))).dedup).length

/-- Contract `G` by `zeta` and contract the returned graph again by its
identity clustering (each of its nodes in its own cluster); a failure of the
first contraction leaves nothing to contract. -/
def contractAgain (G : Graph) (zeta : Clustering) : Except ContractError Graph :=
  match (run G zeta).result with
  | .error err => .error err
  | .ok Gc => (run Gc (identityClustering Gc.z)).result

/-- The condition of the assertion in `getSuperNode` (line 39) for the node
`v`: `cv <= zeta.upperBound()` with `cv = zeta[v]`. -/
def assertionHolds (zeta : Clustering) (v : node) : Bool :=
  decide (zeta.clusterOf v ≤ zeta.upperBound)

/-- What the node pass maintains about the source graph and the index: every
recorded supernode is an id below the id bound of the source graph, and no
supernode is recorded for two different clusters. -/
def IndexInv (st : Graph × IndexMap) : Prop :=
  (∀ c sv, st.2.slot c = some sv → sv < st.1.z) ∧
  (∀ c c1 sv, st.2.slot c = some sv → st.2.slot c1 = some sv → c = c1)

end EnsembleClustering

/-! # The graph interface `IGraph` (`src/cpp/graph/IGraph.h`) -/

namespace NetworKit

/-- Node identifiers. -/
abbrev node := Nat

/-- An object of a class that implements `IGraph`: the one data member of the
interface, `graphId`, and the node list that the pure virtual `nodes()` of the
implementing class answers. -/
structure IGraph where
  graphId : Nat
  nodes : List node
  deriving DecidableEq

namespace IGraph

/-- Translation of `getId()` (line 66). -/
def getId (g : IGraph) : Nat := g.graphId

/-- Translation of the body the interface provides for `parallelSumForNodes`
(line 376): `{ return 0.0; }`, whatever the graph and the function are. -/
def parallelSumForNodes (_g : IGraph) (_f : node → Int) : Int := 0

/-- Sum of `f v` over all nodes `v` of the graph, what the comment above
`parallelSumForNodes` announces. -/
def sumForNodes (g : IGraph) (f : node → Int) : Int := (g.nodes.map f).sum

end IGraph

/-- A running process: the function-local `static count nextGraphId` of the
default constructor (initialised to 1 on first use) and the graphs constructed
so far, in construction order. -/
structure Process where
  nextGraphId : Nat
  graphs : List IGraph
  deriving DecidableEq

/-- The process before any graph is constructed. -/
def Process.start : Process := { nextGraphId := 1, graphs := [] }

/-- One construction: by the default constructor, or by the copy constructor
from the graph constructed as number `i` (counted from 0). -/
inductive Construction where
  | default
  | copy (i : Nat)
  deriving DecidableEq

/-- Translation of the constructors (lines 47-52).  The default constructor
executes `graphId = nextGraphId++`; the type `count` is declared in
`Globals.h`, which is not among the sources, so its width `w` in bits is a
parameter and the increment wraps at `2 ^ w`.  The copy constructor is
`= default`: it copies every member, `graphId` included, and does not touch
the counter.  Copying a graph that does not exist constructs nothing. -/
def construct (w : Nat) (p : Process) : Construction → Process
  | .default =>
    { nextGraphId := (p.nextGraphId + 1) % 2 ^ w
      graphs := p.graphs ++ [{ graphId := p.nextGraphId, nodes := [] }] }
  | .copy i =>
    match p.graphs[i]? with
    | some g => { p with graphs := p.graphs ++ [g] }
    | none => p

/-- The ids (`getId()`) of the graphs constructed by a sequence of
constructions, in construction order. -/
def constructedIds (w : Nat) (cs : List Construction) : List Nat :=
  ((cs.foldl (construct w) Process.start).graphs.map IGraph.getId)

end NetworKit

namespace EnsembleClustering

/-! ## General facts about `run` -/

/-- No edge operation succeeds on a graph without nodes. -/
theorem setWeight_empty (u v : node) (w : edgeweight) :
    Graph.empty.setWeight u v w = .error .invalidNodeId := by
  simp [Graph.setWeight, Graph.hasNode, Graph.empty]

/-- Inserting an edge into a graph without nodes fails. -/
theorem insertEdge_empty (u v : node) (w : edgeweight) :
    Graph.empty.insertEdge u v w = .error .invalidNodeId := by
  simp [Graph.insertEdge, Graph.hasNode, Graph.empty]

/-- Folding any edge into the still empty contracted graph fails. -/
theorem foldEdge_empty_fails (G : Graph) (zeta : Clustering) (m : IndexMap)
    (e : node × node × edgeweight) :
    ∃ err, foldEdge G zeta m Graph.empty e = .error err := by
  cases hu : getSuperNode zeta m e.1 with
  | error err => exact ⟨err, by simp only [foldEdge, hu]⟩
  | ok su =>
    cases hv : getSuperNode zeta m e.2.1 with
    | error err => exact ⟨err, by simp only [foldEdge, hu, hv]⟩
    | ok sv =>
      refine ⟨.invalidNodeId, ?_⟩
      simp only [foldEdge, hu, hv, Graph.setNodeWeight, setWeight_empty, insertEdge_empty,
        ite_self]

/-- The edge pass started on the empty contracted graph succeeds only when
there is no edge to fold, and then hands back the empty graph. -/
theorem edgePass_empty_ok (G : Graph) (zeta : Clustering) (m : IndexMap)
    (es : List (node × node × edgeweight)) (Gc : Graph)
    (h : edgePass G zeta m es Graph.empty = .ok Gc) : es = [] ∧ Gc = Graph.empty := by
  cases es with
  | nil =>
    simp only [edgePass, Except.ok.injEq] at h
    exact ⟨rfl, h.symm⟩
  | cons e es =>
    obtain ⟨err, herr⟩ := foldEdge_empty_fails G zeta m e
    simp [edgePass, herr] at h

/-- Whatever the input, a graph returned by `run` has no node and no edge:
the supernodes are created in the source graph, never in the result. -/
theorem run_ok_is_empty (G : Graph) (zeta : Clustering) (Gc : Graph)
    (h : (run G zeta).result = .ok Gc) : Gc = Graph.empty :=
  (edgePass_empty_ok _ zeta _ _ Gc h).2

/-- The node pass never touches the edges of the source graph. -/
theorem populate_edges (zeta : Clustering) (st : Graph × IndexMap) (v : node) :
    (populate zeta st v).1.edges = st.1.edges := by
  simp only [populate]
  split <;> rfl

/-- The node pass only ever appends nodes to the source graph. -/
theorem populate_nodes_length (zeta : Clustering) (st : Graph × IndexMap) (v : node) :
    st.1.nodes.length ≤ (populate zeta st v).1.nodes.length := by
  simp only [populate]
  split
  · exact le_rfl
  · simp [Graph.addNode]

/-- Visiting more nodes never shrinks the node list of the source graph. -/
theorem foldl_populate_nodes_length (zeta : Clustering) (vs : List node)
    (st : Graph × IndexMap) :
    st.1.nodes.length ≤ (vs.foldl (populate zeta) st).1.nodes.length := by
  induction vs generalizing st with
  | nil => exact le_rfl
  | cons v vs ih =>
    exact le_trans (populate_nodes_length zeta st v) (ih (populate zeta st v))

/-- Whenever the source graph has a node, `run` leaves it with more nodes than
it had: the first visited node always creates a supernode inside `G`. -/
theorem run_source_grows (G : Graph) (zeta : Clustering) (h : G.nodes ≠ []) :
    G.nodes.length < (run G zeta).source.nodes.length := by
  obtain ⟨v, vs, hvs⟩ := List.exists_cons_of_ne_nil h
  have step : (populate zeta (G, IndexMap.init zeta.upperBound) v).1.nodes.length
      = G.nodes.length + 1 := by
    simp [populate, IndexMap.contains, IndexMap.init, Graph.addNode]
  have mono := foldl_populate_nodes_length zeta vs
    (populate zeta (G, IndexMap.init zeta.upperBound) v)
  simp only [run, nodePass]
  rw [hvs, List.foldl_cons, ← hvs]
  omega

/-! ## The claims about the contracted graph -/

/-- Claim C1, weight conservation, evaluated on the code.  For two disjoint
edges `{0,2}` (weight 1) and `{1,3}` (weight 2) between the clusters 0 and 1
the total edge weight of the input is 3, but `run` returns no graph at all:
the supernodes 4 and 5 live in the source graph, so the first edge operation
on the contracted graph names a node it does not have.  Even when the edge
pass is started on a contracted graph that owns both supernodes, it ends with
the single edge `{4,5}` of weight 2, total 2 and not 3, because `hasEdge` is
asked about the original endpoints. -/
theorem weight_conservation_fails :
    twoCrossEdges.totalEdgeWeight = 3 ∧
    (run twoCrossEdges halves).result = .error .invalidNodeId ∧
    (run twoCrossEdges halves).source = twoCrossEdgesAfter ∧
    edgePass twoCrossEdgesAfter halves halvesIndex twoCrossEdgesAfter.edges superPair
      = .ok { nodes := [4, 5], z := 6, edges := [(4, 5, 2)] } := by
  decide

/-- Claim C2, supernode count, evaluated on the code.  For a single node in
cluster 0 there is one distinct cluster, yet the returned graph has no node;
the one supernode was added to the source graph, which now has two nodes. -/
theorem supernode_count_fails :
    distinctClusters oneNode allZero = 1 ∧
    (run oneNode allZero).result = .ok Graph.empty ∧
    Graph.empty.numberOfNodes = 0 ∧
    (run oneNode allZero).source.numberOfNodes = 2 := by
  decide

/-- Claim C3, inter-cluster accumulation, evaluated on the code.  The edges of
`twoCrossEdges` between the clusters 0 and 1 weigh 3 together.  `run` fails
before any edge is stored.  Taken alone, the inter-cluster branch applied to
the second edge `{1,3}` (weight 2) on a contracted graph that already holds
the edge `{4,5}` of weight 1 asks `hasEdge(1, 3)`, gets false, and inserts
over the stored edge: the weight becomes 2, the later edge, not the sum 3. -/
theorem inter_cluster_accumulation_fails :
    interClusterWeight twoCrossEdges halves 0 1 = 3 ∧
    (run twoCrossEdges halves).result = .error .invalidNodeId ∧
    superPairLinked.hasEdge 1 3 = false ∧
    foldEdge twoCrossEdgesAfter halves halvesIndex superPairLinked (1, 3, 2)
      = .ok { nodes := [4, 5], z := 6, edges := [(4, 5, 2)] } := by
  decide

/-- Claim C4, intra-cluster accumulation, evaluated on the code.  For one edge
`{0,1}` of weight 7 inside cluster 0 the promised self-loop weight is 7; the
supernode of cluster 0 is node 2 of the source graph, the contracted graph has
no node 2, and `run` fails with the invalid-node failure instead of returning
a graph with that self-loop. -/
theorem intra_cluster_accumulation_fails :
    intraClusterWeight oneEdge allZero 0 = 7 ∧
    (run oneEdge allZero).index.get 0 = some 2 ∧
    (run oneEdge allZero).source.hasNode 2 = true ∧
    Graph.empty.hasNode 2 = false ∧
    (run oneEdge allZero).result = .error .invalidNodeId := by
  decide

/-- Claim C5, inputs are read-only, evaluated on the code.  After `run` on two
isolated nodes, each in its own cluster, the source graph has the four nodes
0, 1, 2, 3 and the id bound 4: it is no longer the graph that was passed in. -/
theorem source_graph_is_modified :
    (run twoNodes (identityClustering 2)).source = { nodes := [0, 1, 2, 3], z := 4, edges := [] } ∧
    (run twoNodes (identityClustering 2)).source ≠ twoNodes := by
  decide

/-- Claim C6, out-of-range cluster is rejected, evaluated on the code.  An
isolated node mapped to cluster 5 with bound 2 is accepted and a graph is
returned, and so is an isolated node mapped to the bound 2 itself.  With an
incident edge, cluster 5 trips the assertion, but cluster 2 passes it
(`2 <= 2`) and the supernode lookup succeeds. -/
theorem out_of_range_cluster_not_rejected :
    (run oneNode outOfRange).result = .ok Graph.empty ∧
    (run oneNode atBound).result = .ok Graph.empty ∧
    (run oneEdge outOfRange).result = .error .invalidClusterId ∧
    getSuperNode atBound (run oneEdge atBound).index 0 = .ok 2 ∧
    (run oneEdge atBound).result ≠ .error .invalidClusterId := by
  decide

/-- Claim C7, the returned graph is well formed, evaluated on the code.  For a
single node in cluster 0, `run` succeeds, the index records supernode 1 for
cluster 0, and node 1 is a node of the source graph but not of the returned
graph. -/
theorem supernode_not_in_result :
    (run oneNode allZero).result = .ok Graph.empty ∧
    (run oneNode allZero).index.get 0 = some 1 ∧
    Graph.empty.hasNode 1 = false ∧
    (run oneNode allZero).source.hasNode 1 = true := by
  decide

/-- Claim C8, total collapse, evaluated on the code.  Three isolated nodes in
one cluster give a returned graph with no node, not one; a triangle in one
cluster, total weight 7, gives no graph at all. -/
theorem total_collapse_fails :
    (run threeNodes allZero).result = .ok Graph.empty ∧
    Graph.empty.numberOfNodes = 0 ∧
    triangle.totalEdgeWeight = 7 ∧
    (run triangle allZero).result = .error .invalidNodeId := by
  decide

/-- Claim C9, identity clustering, evaluated on the code.  Two isolated nodes,
each in its own cluster, give a returned graph with no node while the input
has two; with the edge `{0,1}` between them no graph is returned. -/
theorem identity_clustering_fails :
    twoNodes.numberOfNodes = 2 ∧
    (run twoNodes (identityClustering 2)).result = .ok Graph.empty ∧
    Graph.empty.numberOfNodes = 0 ∧
    (run oneEdge (identityClustering 2)).result = .error .invalidNodeId := by
  decide

/-- Claim C10, the scenario of the specification, evaluated on the code.  The
node pass records supernode 4 for cluster `A = 0` and supernode 5 for cluster
`B = 1`, both created in the source graph; folding the first edge `(0,1)`
sets the weight of node 4 in the contracted graph, which has no node, and
`run` fails instead of returning the two-node graph. -/
theorem scenario_fails :
    (run scenarioGraph scenarioClustering).index.get 0 = some 4 ∧
    (run scenarioGraph scenarioClustering).index.get 1 = some 5 ∧
    (run scenarioGraph scenarioClustering).source.nodes = [0, 1, 2, 3, 4, 5] ∧
    (run scenarioGraph scenarioClustering).result = .error .invalidNodeId := by
  decide

end EnsembleClustering

namespace EnsembleClustering

/-! ## What the node pass records -/

/-- The invariant holds before the first node is visited. -/
theorem indexInv_init (G : Graph) (n : Nat) : IndexInv (G, IndexMap.init n) := by
  constructor
  · intro c sv h
    simp [IndexMap.init] at h
  · intro c c1 sv h
    simp [IndexMap.init] at h

/-- Visiting one node keeps the invariant: a new supernode is the id bound of
the source graph, which no recorded supernode reaches. -/
theorem populate_inv (zeta : Clustering) (st : Graph × IndexMap) (v : node)
    (h : IndexInv st) : IndexInv (populate zeta st v) := by
  obtain ⟨hlt, hinj⟩ := h
  simp only [populate]
  split
  · exact ⟨hlt, hinj⟩
  · constructor
    · intro c sv hs
      simp only [IndexMap.set, Graph.addNode] at hs ⊢
      split at hs
      · injection hs with hs
        exact hs ▸ Nat.lt_succ_self st.1.z
      · exact Nat.lt_succ_of_lt (hlt c sv hs)
    · intro c c1 sv h1 h2
      simp only [IndexMap.set, Graph.addNode] at h1 h2
      split at h1 <;> split at h2
      · subst_vars
        rfl
      · injection h1 with h1
        have hlt1 : sv < st.1.z := hlt c1 sv h2
        rw [h1] at hlt1
        exact absurd hlt1 (Nat.lt_irrefl sv)
      · injection h2 with h2
        have hlt2 : sv < st.1.z := hlt c sv h1
        rw [h2] at hlt2
        exact absurd hlt2 (Nat.lt_irrefl sv)
      · exact hinj c c1 sv h1 h2

/-- A recorded supernode is never replaced by a later visit. -/
theorem populate_keeps (zeta : Clustering) (st : Graph × IndexMap) (v : node)
    (c : cluster) (sv : node) (h : st.2.slot c = some sv) :
    (populate zeta st v).2.slot c = some sv := by
  simp only [populate]
  split
  · exact h
  · rename_i hc
    have hne : c ≠ zeta.clusterOf v := by
      intro hcv
      apply hc
      simp [IndexMap.contains, ← hcv, h]
    simp [IndexMap.set, hne, h]

/-- After a node is visited its cluster has a supernode. -/
theorem populate_records (zeta : Clustering) (st : Graph × IndexMap) (v : node) :
    ∃ sv, (populate zeta st v).2.slot (zeta.clusterOf v) = some sv := by
  simp only [populate]
  split
  · rename_i hc
    exact Option.isSome_iff_exists.mp hc
  · exact ⟨st.1.addNode.1, by simp [IndexMap.set]⟩

/-- The invariant survives any number of visits. -/
theorem foldl_populate_inv (zeta : Clustering) (vs : List node) (st : Graph × IndexMap)
    (h : IndexInv st) : IndexInv (vs.foldl (populate zeta) st) := by
  induction vs generalizing st with
  | nil => exact h
  | cons v vs ih => exact ih (populate zeta st v) (populate_inv zeta st v h)

/-- A recorded supernode survives any number of visits. -/
theorem foldl_populate_keeps (zeta : Clustering) (vs : List node) (st : Graph × IndexMap)
    (c : cluster) (sv : node) (h : st.2.slot c = some sv) :
    (vs.foldl (populate zeta) st).2.slot c = some sv := by
  induction vs generalizing st with
  | nil => exact h
  | cons v vs ih => exact ih (populate zeta st v) (populate_keeps zeta st v c sv h)

/-- After the visits every visited node has a supernode for its cluster. -/
theorem foldl_populate_records (zeta : Clustering) (vs : List node) (st : Graph × IndexMap)
    (v : node) (hv : v ∈ vs) :
    ∃ sv, (vs.foldl (populate zeta) st).2.slot (zeta.clusterOf v) = some sv := by
  induction vs generalizing st with
  | nil => cases hv
  | cons a vs ih =>
    rcases List.mem_cons.mp hv with rfl | hin
    · obtain ⟨sv, hsv⟩ := populate_records zeta st v
      exact ⟨sv, foldl_populate_keeps zeta vs _ _ sv hsv⟩
    · exact ih (populate zeta st a) hin

/-- After the node pass every node of `G` has a supernode for its cluster. -/
theorem nodePass_records (G : Graph) (zeta : Clustering) (v : node) (hv : v ∈ G.nodes) :
    ∃ sv, (nodePass G zeta).2.get (zeta.clusterOf v) = some sv :=
  foldl_populate_records zeta G.nodes _ v hv

/-- After the node pass no supernode stands for two clusters. -/
theorem nodePass_injective (G : Graph) (zeta : Clustering) (c c1 : cluster) (sv : node)
    (h : (nodePass G zeta).2.get c = some sv) (h1 : (nodePass G zeta).2.get c1 = some sv) :
    c = c1 :=
  (foldl_populate_inv zeta G.nodes _ (indexInv_init G zeta.upperBound)).2 c c1 sv h h1

/-- The node pass leaves the edges of the source graph as they were. -/
theorem nodePass_edges (G : Graph) (zeta : Clustering) : (nodePass G zeta).1.edges = G.edges := by
  have key : ∀ (vs : List node) (st : Graph × IndexMap),
      (vs.foldl (populate zeta) st).1.edges = st.1.edges := by
    intro vs
    induction vs with
    | nil => intro st; rfl
    | cons v vs ih =>
      intro st
      exact (ih (populate zeta st v)).trans (populate_edges zeta st v)
  exact key G.nodes _

/-- For a node with a recorded supernode whose cluster passes the assertion,
`getSuperNode` returns that supernode. -/
theorem getSuperNode_of_slot (zeta : Clustering) (m : IndexMap) (v sv : node)
    (hle : zeta.clusterOf v ≤ zeta.upperBound) (h : m.get (zeta.clusterOf v) = some sv) :
    getSuperNode zeta m v = .ok sv := by
  simp [getSuperNode, hle, h]

end EnsembleClustering

namespace EnsembleClustering

/-- For an edge whose two lookups succeed, folding it into the still empty
contracted graph fails with the invalid-node failure. -/
theorem foldEdge_empty_of_lookups (G : Graph) (zeta : Clustering) (m : IndexMap)
    (e : node × node × edgeweight) (su sv : node)
    (hu : getSuperNode zeta m e.1 = .ok su) (hv : getSuperNode zeta m e.2.1 = .ok sv) :
    foldEdge G zeta m Graph.empty e = .error .invalidNodeId := by
  simp only [foldEdge, hu, hv, Graph.setNodeWeight, setWeight_empty, insertEdge_empty, ite_self]

/-- Every endpoint of an edge of `G` is looked up successfully after the node
pass, when the edges of `G` join nodes of `G` and every node has a cluster id
below the declared bound. -/
theorem lookup_of_edge (G : Graph) (zeta : Clustering)
    (hedges : ∀ e ∈ G.edges, e.1 ∈ G.nodes ∧ e.2.1 ∈ G.nodes)
    (hcov : ∀ v ∈ G.nodes, zeta.clusterOf v < zeta.upperBound)
    (e : node × node × edgeweight) (he : e ∈ G.edges) :
    (∃ su, (nodePass G zeta).2.get (zeta.clusterOf e.1) = some su ∧
        getSuperNode zeta (nodePass G zeta).2 e.1 = .ok su) ∧
    (∃ sv, (nodePass G zeta).2.get (zeta.clusterOf e.2.1) = some sv ∧
        getSuperNode zeta (nodePass G zeta).2 e.2.1 = .ok sv) := by
  obtain ⟨h1, h2⟩ := hedges e he
  obtain ⟨su, hsu⟩ := nodePass_records G zeta e.1 h1
  obtain ⟨sv, hsv⟩ := nodePass_records G zeta e.2.1 h2
  exact ⟨⟨su, hsu, getSuperNode_of_slot zeta _ _ su (Nat.le_of_lt (hcov _ h1)) hsu⟩,
    ⟨sv, hsv, getSuperNode_of_slot zeta _ _ sv (Nat.le_of_lt (hcov _ h2)) hsv⟩⟩

/-- The two outcomes of `run` on a well-formed input: without edges the empty
graph is returned, with at least one edge the call fails with the invalid-node
failure at the first edge. -/
theorem run_result_cases (G : Graph) (zeta : Clustering)
    (hedges : ∀ e ∈ G.edges, e.1 ∈ G.nodes ∧ e.2.1 ∈ G.nodes)
    (hcov : ∀ v ∈ G.nodes, zeta.clusterOf v < zeta.upperBound) :
    (G.edges = [] ∧ (run G zeta).result = .ok Graph.empty) ∨
    (G.edges ≠ [] ∧ (run G zeta).result = .error .invalidNodeId) := by
  have hE := nodePass_edges G zeta
  cases hes : G.edges with
  | nil =>
    left
    refine ⟨rfl, ?_⟩
    simp only [run, hE, hes, edgePass]
  | cons e es =>
    right
    refine ⟨by simp, ?_⟩
    have he : e ∈ G.edges := by simp [hes]
    obtain ⟨⟨su, _, hsu⟩, ⟨sv, _, hsv⟩⟩ := lookup_of_edge G zeta hedges hcov e he
    have hf := foldEdge_empty_of_lookups (nodePass G zeta).1 zeta (nodePass G zeta).2 e su sv hsu hsv
    simp only [run, hE, hes, edgePass, hf]

/-- Claim C12: for every graph `G`, every clustering that gives each node of
`G` a cluster id below the declared bound, and all nodes `u`, `v` of `G`, the
supernode lookups for `u` and for `v` after the node pass both succeed, and
they return the same supernode if and only if `u` and `v` are in the same
cluster. -/
theorem supernode_mapping_bijective (G : Graph) (zeta : Clustering)
    (hcov : ∀ v ∈ G.nodes, zeta.clusterOf v < zeta.upperBound)
    (u v : node) (hu : u ∈ G.nodes) (hv : v ∈ G.nodes) :
    ∃ su sv, getSuperNode zeta (run G zeta).index u = .ok su ∧
      getSuperNode zeta (run G zeta).index v = .ok sv ∧
      (su = sv ↔ zeta.clusterOf u = zeta.clusterOf v) := by
  obtain ⟨su, hsu⟩ := nodePass_records G zeta u hu
  obtain ⟨sv, hsv⟩ := nodePass_records G zeta v hv
  refine ⟨su, sv, getSuperNode_of_slot zeta _ u su (Nat.le_of_lt (hcov u hu)) hsu,
    getSuperNode_of_slot zeta _ v sv (Nat.le_of_lt (hcov v hv)) hsv, ?_, ?_⟩
  · intro heq
    subst heq
    exact nodePass_injective G zeta _ _ su hsu hsv
  · intro heq
    rw [heq, hsv] at hsu
    exact (Option.some.inj hsu).symm

/-- Witness for C12 on the scenario graph: nodes 0 and 2 are in different
clusters and get different supernodes. -/
theorem supernode_mapping_bijective_witness :
    (∀ v ∈ scenarioGraph.nodes,
      scenarioClustering.clusterOf v < scenarioClustering.upperBound) ∧
    ∃ su sv, getSuperNode scenarioClustering (run scenarioGraph scenarioClustering).index 0 = .ok su ∧
      getSuperNode scenarioClustering (run scenarioGraph scenarioClustering).index 2 = .ok sv ∧
      (su = sv ↔ scenarioClustering.clusterOf 0 = scenarioClustering.clusterOf 2) :=
  ⟨by decide,
    supernode_mapping_bijective scenarioGraph scenarioClustering (by decide) 0 2
      (by decide) (by decide)⟩

/-- Claim C17: for every graph `G` whose edges all join nodes of `G` and every
clustering with `clusterOf v < upperBound` for every node `v` of `G`, each
`getSuperNode` call of the edge pass (one per endpoint of each edge the pass
walks) returns a supernode, and it is the entry the node pass recorded in the
index for that endpoint's cluster; `run` never ends in the
missing-supernode failure. -/
theorem supernode_lookup_never_misses (G : Graph) (zeta : Clustering)
    (hedges : ∀ e ∈ G.edges, e.1 ∈ G.nodes ∧ e.2.1 ∈ G.nodes)
    (hcov : ∀ v ∈ G.nodes, zeta.clusterOf v < zeta.upperBound) :
    (∀ e ∈ (run G zeta).source.edges,
      (∃ su, (run G zeta).index.get (zeta.clusterOf e.1) = some su ∧
          getSuperNode zeta (run G zeta).index e.1 = .ok su) ∧
      (∃ sv, (run G zeta).index.get (zeta.clusterOf e.2.1) = some sv ∧
          getSuperNode zeta (run G zeta).index e.2.1 = .ok sv)) ∧
    (run G zeta).result ≠ .error .missingSuperNode := by
  constructor
  · intro e he
    have he1 : e ∈ G.edges := by
      have hE := nodePass_edges G zeta
      simpa only [run, hE] using he
    exact lookup_of_edge G zeta hedges hcov e he1
  · rcases run_result_cases G zeta hedges hcov with ⟨_, h⟩ | ⟨_, h⟩ <;> simp [h]

/-- Witness for C17 on the scenario graph. -/
theorem supernode_lookup_never_misses_witness :
    (∀ e ∈ scenarioGraph.edges, e.1 ∈ scenarioGraph.nodes ∧ e.2.1 ∈ scenarioGraph.nodes) ∧
    (∀ v ∈ scenarioGraph.nodes,
      scenarioClustering.clusterOf v < scenarioClustering.upperBound) ∧
    (∀ e ∈ (run scenarioGraph scenarioClustering).source.edges,
      (∃ su, (run scenarioGraph scenarioClustering).index.get
            (scenarioClustering.clusterOf e.1) = some su ∧
          getSuperNode scenarioClustering (run scenarioGraph scenarioClustering).index e.1
            = .ok su) ∧
      (∃ sv, (run scenarioGraph scenarioClustering).index.get
            (scenarioClustering.clusterOf e.2.1) = some sv ∧
          getSuperNode scenarioClustering (run scenarioGraph scenarioClustering).index e.2.1
            = .ok sv)) ∧
    (run scenarioGraph scenarioClustering).result ≠ .error .missingSuperNode :=
  ⟨by decide, by decide,
    supernode_lookup_never_misses scenarioGraph scenarioClustering (by decide) (by decide)⟩

end EnsembleClustering

namespace EnsembleClustering

/-- The assertion of `getSuperNode` is what decides the out-of-range failure:
the lookup ends in the invalid-cluster failure exactly when the asserted
condition is false. -/
theorem getSuperNode_invalid_iff (zeta : Clustering) (m : IndexMap) (v : node) :
    getSuperNode zeta m v = .error .invalidClusterId ↔ assertionHolds zeta v = false := by
  unfold getSuperNode assertionHolds
  by_cases h : zeta.clusterOf v ≤ zeta.upperBound
  · simp only [h, if_true, decide_True]
    cases m.get (zeta.clusterOf v) <;> simp
  · simp [h]

/-- The outcome of `run` does not depend on the order in which the node pass
enumerates the nodes: with the nodes of `G` in any other order `ns`, the call
returns the same graph or fails with the same failure. -/
theorem run_result_order_independent (G : Graph) (zeta : Clustering) (ns : List node)
    (hperm : ns.Perm G.nodes)
    (hedges : ∀ e ∈ G.edges, e.1 ∈ G.nodes ∧ e.2.1 ∈ G.nodes)
    (hcov : ∀ v ∈ G.nodes, zeta.clusterOf v < zeta.upperBound) :
    (run (G.reorder ns) zeta).result = (run G zeta).result := by
  have hedges2 : ∀ e ∈ (G.reorder ns).edges,
      e.1 ∈ (G.reorder ns).nodes ∧ e.2.1 ∈ (G.reorder ns).nodes := by
    intro e he
    obtain ⟨h1, h2⟩ := hedges e he
    exact ⟨hperm.mem_iff.mpr h1, hperm.mem_iff.mpr h2⟩
  have hcov2 : ∀ v ∈ (G.reorder ns).nodes, zeta.clusterOf v < zeta.upperBound := by
    intro v hv
    exact hcov v (hperm.mem_iff.mp hv)
  have hsame : (G.reorder ns).edges = G.edges := rfl
  rcases run_result_cases G zeta hedges hcov with ⟨h0, h⟩ | ⟨h0, h⟩ <;>
    rcases run_result_cases (G.reorder ns) zeta hedges2 hcov2 with ⟨k0, k⟩ | ⟨k0, k⟩
  · rw [h, k]
  · exact absurd (hsame ▸ h0) k0
  · exact absurd (hsame ▸ k0) h0
  · rw [h, k]

/-- Counting the nodes the node pass adds: when `S` is the set of clusters that
already have a supernode, visiting the nodes `vs` adds one node to the source
graph for each cluster of `vs` that is not in `S`. -/
theorem foldl_populate_count (zeta : Clustering) (vs : List node) (st : Graph × IndexMap)
    (S : Finset cluster) (hS : ∀ c, st.2.contains c = true ↔ c ∈ S) :
    (vs.foldl (populate zeta) st).1.nodes.length + S.card
      = st.1.nodes.length + (S ∪ (vs.map zeta.clusterOf).toFinset).card := by
  induction vs generalizing st S with
  | nil => simp
  | cons v vs ih =>
    simp only [List.foldl_cons, List.map_cons, List.toFinset_cons]
    by_cases hc : st.2.contains (zeta.clusterOf v) = true
    · have hin : zeta.clusterOf v ∈ S := (hS _).mp hc
      have hst : populate zeta st v = st := by simp [populate, hc]
      rw [hst, ih st S hS]
      congr 2
      ext c
      simp only [Finset.mem_union, Finset.mem_insert, List.mem_toFinset]
      constructor
      · rintro (h | h)
        · exact Or.inl h
        · exact Or.inr (Or.inr h)
      · rintro (h | h | h)
        · exact Or.inl h
        · exact Or.inl (h ▸ hin)
        · exact Or.inr h
    · have hnin : zeta.clusterOf v ∉ S := fun h => hc ((hS _).mpr h)
      have hpop : populate zeta st v
          = (st.1.addNode.2, st.2.set (zeta.clusterOf v) st.1.addNode.1) := by
        simp only [populate, hc, Bool.false_eq_true, if_false]
      have hS1 : ∀ c, (populate zeta st v).2.contains c = true
          ↔ c ∈ insert (zeta.clusterOf v) S := by
        intro c
        rw [hpop]
        by_cases hcv : c = zeta.clusterOf v
        · simp [hcv, IndexMap.contains, IndexMap.set]
        · have h1 : (st.2.set (zeta.clusterOf v) st.1.addNode.1).contains c = st.2.contains c := by
            simp [IndexMap.contains, IndexMap.set, hcv]
          simp only [h1, Finset.mem_insert, hcv, false_or]
          exact hS c
      have hlen : (populate zeta st v).1.nodes.length = st.1.nodes.length + 1 := by
        rw [hpop]
        simp [Graph.addNode]
      have key := ih (populate zeta st v) (insert (zeta.clusterOf v) S) hS1
      rw [Finset.card_insert_of_not_mem hnin, hlen] at key
      have hset : insert (zeta.clusterOf v) S ∪ (vs.map zeta.clusterOf).toFinset
          = S ∪ insert (zeta.clusterOf v) (vs.map zeta.clusterOf).toFinset := by
        ext c
        simp only [Finset.mem_union, Finset.mem_insert, List.mem_toFinset]
        tauto
      rw [hset] at key
      omega

/-- The node pass creates exactly one supernode per distinct cluster of the
nodes of `G`, and creates it in the source graph: after `run` the source graph
has its own nodes plus `distinctClusters G zeta` more. -/
theorem run_source_node_count (G : Graph) (zeta : Clustering) :
    (run G zeta).source.numberOfNodes = G.numberOfNodes + distinctClusters G zeta := by
  have h := foldl_populate_count zeta G.nodes (G, IndexMap.init zeta.upperBound) ∅
    (by intro c; simp [IndexMap.contains, IndexMap.init])
  simp only [Finset.card_empty, Nat.add_zero, Finset.empty_union, List.card_toFinset] at h
  simpa only [run, nodePass, Graph.numberOfNodes, distinctClusters] using h

/-! ## The remaining claims about the contracted graph -/

/-- Claim C11, one contracted edge per cluster pair, evaluated on the code.
On the path `0 - 1 - 2` with every node in its own cluster two cluster pairs
are joined by an edge, and `G` has an edge between the clusters 0 and 1.  The
supernodes 3, 4, 5 are recorded, but `run` returns no graph: there is no edge
between the supernodes 3 and 4, and no count of non-self edges equal to 2. -/
theorem one_edge_per_cluster_pair_fails :
    joinedClusterPairs crossPath (identityClustering 3) = 2 ∧
    crossPath.hasEdge 0 1 = true ∧
    (run crossPath (identityClustering 3)).index.get 0 = some 3 ∧
    (run crossPath (identityClustering 3)).index.get 1 = some 4 ∧
    (run crossPath (identityClustering 3)).index.get 2 = some 5 ∧
    (run crossPath (identityClustering 3)).result = .error .invalidNodeId := by
  decide

/-- Claim C13, idempotence under refinement, evaluated on the code.  On the
scenario of the specification the first contraction fails, so there is no
contracted graph to contract again and no second graph isomorphic to it. -/
theorem idempotence_fails :
    (run scenarioGraph scenarioClustering).result = .error .invalidNodeId ∧
    contractAgain scenarioGraph scenarioClustering = .error .invalidNodeId := by
  decide

/-- Claim C14, node-visitation order independence, evaluated on the code.
For the edge `{0,1}` with each node in its own cluster, visiting 0 first
records the supernodes `0 -> 2, 1 -> 3`, visiting 1 first records
`0 -> 3, 1 -> 2`; under either order `run` fails at the edge, so there are no
two returned graphs to match by that relabeling. -/
theorem node_order_runs_return_no_graph :
    (run oneEdge (identityClustering 2)).index.get 0 = some 2 ∧
    (run oneEdge (identityClustering 2)).index.get 1 = some 3 ∧
    (run (oneEdge.reorder [1, 0]) (identityClustering 2)).index.get 0 = some 3 ∧
    (run (oneEdge.reorder [1, 0]) (identityClustering 2)).index.get 1 = some 2 ∧
    (run oneEdge (identityClustering 2)).result = .error .invalidNodeId ∧
    (run (oneEdge.reorder [1, 0]) (identityClustering 2)).result = .error .invalidNodeId := by
  decide

/-- Claim C18, the range check of `getSuperNode`, evaluated on the code.  With
the declared bound 2, a node in cluster 2 passes the assertion although
`2 < 2` is false; the index was created for 2 cluster ids, and the lookup that
follows reads the key 2 and returns what is stored there. -/
theorem assertion_admits_the_bound :
    atBound.upperBound = 2 ∧
    atBound.clusterOf 0 = 2 ∧
    assertionHolds atBound 0 = true ∧
    ¬ (atBound.clusterOf 0 < atBound.upperBound) ∧
    (run oneEdge atBound).index.n = 2 ∧
    getSuperNode atBound (run oneEdge atBound).index 0 = .ok 2 := by
  decide

end EnsembleClustering

namespace NetworKit

/-! ## The claims about the interface `IGraph` -/

/-- Claim C15, graph ids are unique and increasing, evaluated on the code.
Whatever the width of `count`, a default construction followed by a copy of
that graph gives two graphs with the id 1: the ids are neither pairwise
different nor strictly increasing.  Three default constructions give the ids
1, 2, 3. -/
theorem copied_graph_shares_id :
    (∀ w : Nat, constructedIds w [.default, .copy 0] = [1, 1]) ∧
    ¬ (constructedIds 64 [.default, .copy 0]).Nodup ∧
    ¬ (constructedIds 64 [.default, .copy 0]).Pairwise (fun a b => a < b) ∧
    constructedIds 64 [.default, .default, .default] = [1, 2, 3] := by
  refine ⟨fun w => rfl, ?_, ?_, ?_⟩ <;> decide

/-- Claim C16, node sum reduction, evaluated on the code.  The body the
interface provides returns 0 for every graph and every function; for a graph
with the nodes 0 and 1 and the function that is constantly 1 the sum over the
nodes is 2. -/
theorem parallelSumForNodes_returns_zero :
    (∀ (g : IGraph) (f : node → Int), g.parallelSumForNodes f = 0) ∧
    IGraph.parallelSumForNodes { graphId := 1, nodes := [0, 1] } (fun _ => 1) = 0 ∧
    IGraph.sumForNodes { graphId := 1, nodes := [0, 1] } (fun _ => 1) = 2 := by
  refine ⟨fun _ _ => rfl, ?_, ?_⟩ <;> decide

end NetworKit
